import Mathlib

/-!
Verification of the marine-pollution dashboard core pipeline
(`src/streamlit_app.py`): the loader/normalizer (`load_data`) and the
filter engine (`filter_dataframe`), together with the top-category
ranking and the delimited-text export.

The pandas data frame is embedded shallowly: a frame is a list of rows,
a cell is either a string, a number, or missing (`NaN`/`NaT`), and the
columnar operations of the source become per-row list operations.
-/

/-- A raw spreadsheet cell: a string, an integral numeric value, or a
missing value (pandas `NaN`). -/
inductive Cell where
  | s (v : String)
  | n (v : Int)
  | empty
deriving DecidableEq, Repr

/-- A point in time, as produced by `pd.to_datetime`: a calendar day
(as an integer day number) plus a time-of-day component.  `.dt.date`
keeps only the day. -/
structure Timestamp where
  day : Int
  tod : Nat
deriving DecidableEq, Repr

/-- `Timestamp.date` models `.dt.date` / `pd.Timestamp.date()`:
truncation to the calendar day, ignoring time-of-day. -/
def Timestamp.date (t : Timestamp) : Int := t.day

/-- One row of the canonical table produced by `load_data`: `inc_date`
has been coerced with `pd.to_datetime(errors='coerce')` (failures are
`none`, i.e. `NaT`), `pollution_qty` with
`pd.to_numeric(errors='coerce')` (failures are `none`, i.e. `NaN`), and
`pollution_type` has been normalized to a non-null string.  `Note*`
columns are already dropped and rows without `LAT_1`/`LONG` removed. -/
structure Row where
  Country : Cell
  inc_date : Option Timestamp
  pollution_qty : Option Int
  pollution_type : String
  material : Cell
  LAT_1 : Cell
  LONG : Cell
deriving DecidableEq, Repr

/-- Python truthiness of an optional string argument (`if country:`):
`None` and the empty string are falsy, every other string truthy. -/
def truthyStr : Option String → Bool
  | none => false
  | some s => s ≠ ""

/-- Python truthiness of an optional `pd.Timestamp` (`if start_date and
end_date:`): `None` is falsy, every timestamp truthy. -/
def truthyTs : Option Timestamp → Bool
  | none => false
  | some _ => true

/-- The country predicate of `filter_dataframe`
(`dff[dff['Country'] == country]`). -/
def countryPred (country : String) (r : Row) : Bool :=
  r.Country == Cell.s country

/-- The pollution-type predicate of `filter_dataframe`
(`dff[dff['pollution_type'] == ptype]`). -/
def ptypePred (ptype : String) (r : Row) : Bool :=
  r.pollution_type == ptype

/-- The date-range predicate of `filter_dataframe`, evaluated on a row
that survived `dropna(subset=['inc_date'])`:
`(dt.date >= start.date()) & (dt.date <= end.date())`. -/
def dateRangePred (start_date end_date : Timestamp) (r : Row) : Bool :=
  match r.inc_date with
  | some t => decide (start_date.date ≤ t.date) && decide (t.date ≤ end_date.date)
  | none => false

/-- Shallow embedding of `filter_dataframe(data_frame, country, ptype,
start_date, end_date)` from `src/streamlit_app.py` lines 109-125: the
three predicates are applied in sequence, each guarded by Python
truthiness of its argument; the date step first drops rows whose
`inc_date` is `NaT` and then keeps the rows whose calendar date lies in
the closed interval `[start.date(), end.date()]`. -/
def filter_dataframe (data_frame : List Row) (country ptype : Option String)
    (start_date end_date : Option Timestamp) : List Row :=
  let dff := data_frame
  let dff := if truthyStr country
    then dff.filter (countryPred (country.getD ""))
    else dff
  let dff := if truthyStr ptype
    then dff.filter (ptypePred (ptype.getD ""))
    else dff
  if truthyTs start_date && truthyTs end_date then
    let dff_temp := dff.filter (fun r => r.inc_date.isSome)
    dff_temp.filter
      (dateRangePred (start_date.getD ⟨0, 0⟩) (end_date.getD ⟨0, 0⟩))
  else dff

/-- The single row-level predicate that `filter_dataframe` computes: the
conjunction of the active predicates, an inactive predicate matching
everything. -/
def rowMatches (country ptype : Option String)
    (start_date end_date : Option Timestamp) (r : Row) : Bool :=
  (!truthyStr country || countryPred (country.getD "") r) &&
  ((!truthyStr ptype || ptypePred (ptype.getD "") r) &&
   (!(truthyTs start_date && truthyTs end_date) ||
    (r.inc_date.isSome &&
     dateRangePred (start_date.getD ⟨0, 0⟩) (end_date.getD ⟨0, 0⟩) r)))

theorem filter_dataframe_eq_filter (df : List Row) (c p : Option String)
    (s e : Option Timestamp) :
    filter_dataframe df c p s e = df.filter (rowMatches c p s e) := by
  unfold filter_dataframe rowMatches
  by_cases hc : truthyStr c <;> by_cases hp : truthyStr p <;>
    by_cases hs : truthyTs s <;> by_cases he : truthyTs e <;>
      simp [hc, hp, hs, he, List.filter_filter, Bool.and_comm, Bool.and_assoc,
        Bool.and_left_comm]

/-- C4: filtering with all three predicates absent (country `None`,
pollution type `None`, no date range) returns the full canonical table,
every row present, in the original row order. -/
theorem filter_all_predicates_absent (df : List Row) :
    filter_dataframe df none none none none = df := by
  simp [filter_dataframe, truthyStr, truthyTs]

/-- C3: whenever the date-range predicate is active (both endpoints
truthy), every row with an unknown (`NaT`) incident date is absent from
the filtered view; whenever it is inactive, a row with an unknown
incident date is in the filtered view exactly when it satisfies the
other active predicates. -/
theorem filter_unknown_dates (df : List Row) (c p : Option String)
    (s e : Option Timestamp) :
    ((truthyTs s && truthyTs e) = true →
      ∀ r ∈ filter_dataframe df c p s e, r.inc_date.isSome) ∧
    ((truthyTs s && truthyTs e) = false →
      ∀ r ∈ df, r.inc_date = none →
        (r ∈ filter_dataframe df c p s e ↔
          ((!truthyStr c || countryPred (c.getD "") r) &&
           (!truthyStr p || ptypePred (p.getD "") r)) = true)) := by
  constructor
  · intro hact r hr
    rw [filter_dataframe_eq_filter] at hr
    have hm := List.of_mem_filter hr
    unfold rowMatches at hm
    rw [hact] at hm
    simp only [Bool.not_true, Bool.false_or, Bool.and_eq_true] at hm
    exact hm.2.2.1
  · intro hact r hr hnone
    rw [filter_dataframe_eq_filter, List.mem_filter]
    unfold rowMatches
    rw [hact]
    simp [hr]

/-- C5: with the date range `[D, D]` active and no other predicate, the
filtered view consists exactly of the rows whose incident date,
truncated to the calendar day, equals `D`; rows with unknown incident
dates are excluded. -/
theorem filter_single_day (df : List Row) (D : Int) :
    filter_dataframe df none none (some ⟨D, 0⟩) (some ⟨D, 0⟩) =
      df.filter (fun r => match r.inc_date with
        | some t => t.date == D
        | none => false) := by
  rw [filter_dataframe_eq_filter]
  apply List.filter_congr
  intro r _
  unfold rowMatches dateRangePred
  cases h : r.inc_date with
  | none => simp [truthyStr, truthyTs, h]
  | some t =>
    apply Bool.eq_iff_iff.mpr
    simp [truthyStr, truthyTs, h, Timestamp.date]
    omega

/-- C6: an inverted date range does not raise (the embedding is a total
function) and follows the empty-view policy: whenever the active range
has `start` after `end` (midnight timestamps, as produced from the date
picker by `pd.Timestamp(date)`), the filtered view is empty, for every
table and every choice of the other predicates. -/
theorem filter_inverted_range (df : List Row) (c p : Option String)
    (sd ed : Timestamp) (hs : sd.tod = 0) (he : ed.tod = 0)
    (hinv : ed.day < sd.day) :
    filter_dataframe df c p (some sd) (some ed) = [] := by
  rw [filter_dataframe_eq_filter]
  rw [List.filter_eq_nil]
  intro r _
  unfold rowMatches dateRangePred
  cases h : r.inc_date with
  | none => simp [truthyTs, h]
  | some t =>
    simp only [truthyTs, Option.getD, Bool.and_self, Bool.not_true,
      Bool.false_or, h]
    simp [Timestamp.date]
    intro h1 h2 h3
    omega

/-- A sample canonical row with a known incident date, for concrete
instantiations. -/
def sampleRowDated : Row :=
  { Country := Cell.s "X", inc_date := some ⟨5, 0⟩,
    pollution_qty := none, pollution_type := "Tumpahan Minyak",
    material := Cell.empty, LAT_1 := Cell.n 1, LONG := Cell.n 2 }

/-- A sample canonical row with an unknown (`NaT`) incident date. -/
def sampleRowNoDate : Row :=
  { Country := Cell.s "X", inc_date := none,
    pollution_qty := none, pollution_type := "Tumpahan Minyak",
    material := Cell.empty, LAT_1 := Cell.n 1, LONG := Cell.n 2 }

theorem filter_inverted_range_witness :
    filter_dataframe [sampleRowDated] none none
      (some ⟨9, 0⟩) (some ⟨3, 0⟩) = [] :=
  filter_inverted_range _ none none ⟨9, 0⟩ ⟨3, 0⟩ rfl rfl (by decide)

theorem filter_unknown_dates_witness :
    sampleRowDated.inc_date.isSome = true ∧
    sampleRowNoDate ∈ filter_dataframe [sampleRowNoDate, sampleRowDated]
      none none none none :=
  ⟨(filter_unknown_dates [sampleRowNoDate, sampleRowDated] none none
      (some ⟨3, 0⟩) (some ⟨7, 0⟩)).1 (by decide) sampleRowDated (by decide),
   ((filter_unknown_dates [sampleRowNoDate, sampleRowDated] none none
      none none).2 (by decide) sampleRowNoDate (by decide) rfl).mpr
        (by decide)⟩

/-- C7: the filter engine is a pure function of its arguments — its
result is literally `List.filter` of a predicate determined by the
predicate values — and it never disturbs the canonical table: the
filtered view is a sublist of the table, in the table's original row
order. -/
theorem filter_pure_sublist (df : List Row) (c p : Option String)
    (s e : Option Timestamp) :
    filter_dataframe df c p s e = df.filter (rowMatches c p s e) ∧
    (filter_dataframe df c p s e).Sublist df := by
  refine ⟨filter_dataframe_eq_filter df c p s e, ?_⟩
  rw [filter_dataframe_eq_filter]
  exact List.filter_sublist df

/-! ## The pollution-type normalization pipeline (`load_data`, lines 22-51)

Strings are handled through their character lists; the Python string
operations `strip`, `lower`, `title` are embedded over the ASCII
letter ranges. -/

/-- The whitespace characters removed by Python `str.strip()`. -/
def isSpaceChar (c : Char) : Bool :=
  c == ' ' || c == '\t' || c == '\n' || c == '\r' || c == '\x0b' || c == '\x0c'

/-- Python `str.lower` on one character (ASCII). -/
def lowerChar (c : Char) : Char :=
  if 65 ≤ c.toNat ∧ c.toNat ≤ 90 then Char.ofNat (c.toNat + 32) else c

/-- Python `str.upper` on one character (ASCII), used by `str.title`
at the start of each word. -/
def upperChar (c : Char) : Char :=
  if 97 ≤ c.toNat ∧ c.toNat ≤ 122 then Char.ofNat (c.toNat - 32) else c

/-- A cased (letter) character, delimiting the words of `str.title`. -/
def isAlphaChar (c : Char) : Bool :=
  (65 ≤ c.toNat && c.toNat ≤ 90) || (97 ≤ c.toNat && c.toNat ≤ 122)

/-- `str.strip` from the left: drop leading whitespace. -/
def lstripChars (l : List Char) : List Char := l.dropWhile isSpaceChar

/-- `str.strip` from the right: drop trailing whitespace. -/
def rstripChars (l : List Char) : List Char :=
  (l.reverse.dropWhile isSpaceChar).reverse

/-- Python `str.strip()`: drop surrounding whitespace. -/
def stripChars (l : List Char) : List Char := rstripChars (lstripChars l)

/-- The worker of Python `str.title`: the flag records whether the
previous character was cased; a cased character is uppercased at a word
start and lowercased inside a word. -/
def titleAux : Bool → List Char → List Char
  | _, [] => []
  | prev, c :: cs =>
    (if isAlphaChar c then (if prev then lowerChar c else upperChar c) else c)
      :: titleAux (isAlphaChar c) cs

/-- Python `str.title()`. -/
def titleChars (l : List Char) : List Char := titleAux false l

/-- `.str.strip()` on a string. -/
def stripString (s : String) : String := ⟨stripChars s.data⟩

/-- `.str.lower()` on a string. -/
def lowerString (s : String) : String := ⟨s.data.map lowerChar⟩

/-- `.str.title()` on a string. -/
def titleString (s : String) : String := ⟨titleChars s.data⟩

/-- The noise tokens of cleaning step 3 (`problematic_values` in
`load_data`). -/
def problematic_values : List String :=
  ["nan", "", " ", "-", "0", "null", "n/a", "no data"]

/-- Cleaning step 3: `.replace(problematic_values, 'tidak diketahui')`,
an exact whole-value replacement. -/
def replaceProblematic (s : String) : String :=
  if s ∈ problematic_values then "tidak diketahui" else s

/-- The synonym-merge table of cleaning step 4. -/
def synonym_table : List (String × String) :=
  [("oil spill", "tumpahan minyak"),
   ("oil spills", "tumpahan minyak"),
   ("waste dumped overboard", "limbah dibuang ke laut"),
   ("plastic waste", "limbah plastik")]

/-- Cleaning step 4: `.replace({...})`, an exact whole-value
dictionary replacement. -/
def replaceSynonyms (s : String) : String :=
  match synonym_table.find? (fun p => p.1 == s) with
  | some p => p.2
  | none => s

/-- Cleaning step 6: re-assert the sentinel after `title()`
(`df.loc[df['pollution_type'] == 'Tidak Diketahui', ...] =
'Tidak Diketahui'`, a self-assignment). -/
def fixSentinel (s : String) : String :=
  if s = "Tidak Diketahui" then "Tidak Diketahui" else s

/-- Python `astype(str)` on one cell: `NaN` prints as `"nan"`. -/
def cellPyStr : Cell → String
  | .s v => v
  | .n v => toString v
  | .empty => "nan"

/-- The full pollution-type normalization of `load_data` applied to one
string value: strip, lower, noise-token replacement, synonym merge,
title-case, sentinel re-assertion (lines 24-47). -/
def normString (s : String) : String :=
  fixSentinel (titleString (replaceSynonyms (replaceProblematic
    (lowerString (stripString s)))))

/-- The normalization applied to a raw cell, starting with
`astype(str)`. -/
def normalize_pollution_type (c : Cell) : String :=
  normString (cellPyStr c)

/-- C1 counterexample: on the source value `"-"` (and likewise on null)
the normalization produces the literal sentinel `"Tidak Diketahui"`,
not `"Unknown"` as the claim states. -/
theorem normalize_sentinel_counterexample :
    normalize_pollution_type (Cell.s "-") = "Tidak Diketahui" ∧
    normalize_pollution_type Cell.empty = "Tidak Diketahui" ∧
    normalize_pollution_type (Cell.s "-") ≠ "Unknown" := by
  refine ⟨rfl, rfl, ?_⟩
  decide

/-- C1 (amended): the four scenario inputs `"oil spill"`, `"Oil
Spills"`, `"-"`, null normalize to `"Tumpahan Minyak"`, `"Tumpahan
Minyak"`, `"Tidak Diketahui"`, `"Tidak Diketahui"`; the sentinel
category always renders as the literal string `"Tidak Diketahui"`. -/
theorem normalize_scenario :
    normalize_pollution_type (Cell.s "oil spill") = "Tumpahan Minyak" ∧
    normalize_pollution_type (Cell.s "Oil Spills") = "Tumpahan Minyak" ∧
    normalize_pollution_type (Cell.s "-") = "Tidak Diketahui" ∧
    normalize_pollution_type Cell.empty = "Tidak Diketahui" :=
  ⟨rfl, rfl, rfl, rfl⟩

/-! ## The loader (`load_data`, lines 9-65) -/

/-- The two boundary errors of the loader: the `FileNotFoundError`
branch (`DataUnavailable`) and the catch-all `except Exception` branch
(`DataMalformed`), both ending in `st.stop()`. -/
inductive LoadError where
  | DataUnavailable
  | DataMalformed
deriving DecidableEq, Repr

/-- One raw spreadsheet row, before cleaning.  The `note` field stands
for a `Note*` column, dropped at load time (line 16-17) and therefore
absent from `Row`. -/
structure RawRow where
  Country : Cell
  inc_date : Cell
  pollution_qty : Cell
  pollution_type : Cell
  material : Cell
  LAT_1 : Cell
  LONG : Cell
  note : Cell
deriving DecidableEq, Repr

/-- The outcome of `pd.read_excel`: the file is missing
(`FileNotFoundError`), the workbook is unreadable as a whole (any other
exception), or a frame was produced.  `hasPtypeCol` records whether the
`pollution_type` column is present (line 22). -/
inductive ReadResult where
  | missing
  | malformed
  | ok (hasPtypeCol : Bool) (rows : List RawRow)

/-- The row-level cleaning of `load_data`: coerce `inc_date` and
`pollution_qty` with the tolerant parsers (never raising — failures
are `none`), drop the row when `LAT_1` or `LONG` is missing (line 19),
and normalize `pollution_type`, synthesizing the
`'Tidak Diketahui (Kolom Hilang)'` placeholder when the column is
absent (line 51). -/
def cleanRow (dateParse : Cell → Option Timestamp)
    (numParse : Cell → Option Int) (hasPtypeCol : Bool)
    (rr : RawRow) : Option Row :=
  if rr.LAT_1 ≠ Cell.empty ∧ rr.LONG ≠ Cell.empty then
    some { Country := rr.Country,
           inc_date := dateParse rr.inc_date,
           pollution_qty := numParse rr.pollution_qty,
           pollution_type :=
             if hasPtypeCol then normalize_pollution_type rr.pollution_type
             else "Tidak Diketahui (Kolom Hilang)",
           material := rr.material,
           LAT_1 := rr.LAT_1,
           LONG := rr.LONG }
  else none

/-- Shallow embedding of `load_data`: the tolerant coercions
`pd.to_datetime(errors='coerce')` and `pd.to_numeric(errors='coerce')`
are passed in as total functions (their pandas contract: invalid
parsing yields `NaT`/`NaN`, never an exception), so the only error
exits are the two read-failure branches. -/
def load_data (dateParse : Cell → Option Timestamp)
    (numParse : Cell → Option Int) :
    ReadResult → Except LoadError (List Row)
  | .missing => .error .DataUnavailable
  | .malformed => .error .DataMalformed
  | .ok h rows => .ok (rows.filterMap (cleanRow dateParse numParse h))

/-- C9: for every tolerant coercion pair and every readable input
table, the loader succeeds — individual bad rows can only yield `none`
(sentinel) field values, never an error — and it fails exactly on the
two whole-file conditions, with `DataUnavailable` for a missing file
and `DataMalformed` for an unreadable workbook. -/
theorem load_data_row_tolerant (dateParse : Cell → Option Timestamp)
    (numParse : Cell → Option Int) :
    load_data dateParse numParse .missing =
      Except.error LoadError.DataUnavailable ∧
    load_data dateParse numParse .malformed =
      Except.error LoadError.DataMalformed ∧
    ∀ h rows, (load_data dateParse numParse (.ok h rows)).isOk = true := by
  refine ⟨rfl, rfl, fun h rows => rfl⟩

/-! ## The delimited-text export (lines 232-235) -/

/-- The columns of the canonical table, i.e. of `filtered_df`, in frame
order: every loaded column except the dropped `Note*` ones (the
optional `aware_ans` column is not modelled). -/
def export_columns : List String :=
  ["Country", "inc_date", "pollution_qty", "pollution_type",
   "material", "LAT_1", "LONG"]

/-- The six columns the claim (and the on-screen table of line 233)
names. -/
def display_columns : List String :=
  ["Country", "inc_date", "pollution_type", "material", "LAT_1", "LONG"]

/-- CSV rendering of a raw cell (pandas `to_csv`: missing values print
as the empty field). -/
def csvCell : Cell → String
  | .s v => v
  | .n v => toString v
  | .empty => ""

/-- CSV rendering of a coerced date (`NaT` prints as the empty
field). -/
def csvDate : Option Timestamp → String
  | some t => toString t.day
  | none => ""

/-- CSV rendering of a coerced number (`NaN` prints as the empty
field). -/
def csvNum : Option Int → String
  | some v => toString v
  | none => ""

/-- One CSV line for one row of the frame, every column included. -/
def rowToCsv (r : Row) : String :=
  String.intercalate ","
    [csvCell r.Country, csvDate r.inc_date, csvNum r.pollution_qty,
     r.pollution_type, csvCell r.material, csvCell r.LAT_1,
     csvCell r.LONG]

/-- Shallow embedding of `filtered_df.to_csv(index=False)` (line 234)
as a list of lines: a header row over all frame columns, then one line
per record. -/
def to_csv (df : List Row) : List String :=
  String.intercalate "," export_columns :: df.map rowToCsv

/-- C2 counterexample: on a concrete one-row filtered view, the header
of the download is the full seven-column header — it contains
`pollution_qty`, which is not among the six columns the claim allows,
so the export's columns are not limited to those six. -/
theorem csv_columns_counterexample :
    (to_csv (filter_dataframe [sampleRowDated] none none none none)).head? =
      some "Country,inc_date,pollution_qty,pollution_type,material,LAT_1,LONG" ∧
    "pollution_qty" ∈ export_columns ∧
    "pollution_qty" ∉ display_columns := by
  refine ⟨rfl, by decide, by decide⟩

/-- C2 (amended): for every filtered view the export is
comma-separated with a header row and one line per filtered record,
but its columns are all the columns of the canonical table —
`Country, inc_date, pollution_qty, pollution_type, material, LAT_1,
LONG` — not only the six displayed ones (that restriction applies to
the on-screen table of line 233). -/
theorem csv_export_shape (df : List Row) (c p : Option String)
    (s e : Option Timestamp) :
    (to_csv (filter_dataframe df c p s e)).head? =
      some (String.intercalate "," export_columns) ∧
    (to_csv (filter_dataframe df c p s e)).length =
      (filter_dataframe df c p s e).length + 1 ∧
    (to_csv (filter_dataframe df c p s e)).tail =
      (filter_dataframe df c p s e).map rowToCsv ∧
    display_columns ≠ export_columns ∧
    (∀ col ∈ display_columns, col ∈ export_columns) := by
  refine ⟨rfl, by simp [to_csv], rfl, by decide, by decide⟩

/-! ## The top-category ranking (lines 155-182) -/

/-- Worker for `firstKeys`: `seen` holds the values already
emitted. -/
def firstKeysAux : List String → List String → List String
  | [], _ => []
  | x :: xs, seen =>
    if x ∈ seen then firstKeysAux xs seen
    else x :: firstKeysAux xs (x :: seen)

/-- The distinct values of a list in first-appearance order, as
`value_counts` groups them. -/
def firstKeys (l : List String) : List String := firstKeysAux l []

/-- Descending-count order on `(category, count)` pairs. -/
def countGE (a b : String × Nat) : Prop := b.2 ≤ a.2

instance : DecidableRel countGE := fun a b =>
  inferInstanceAs (Decidable (b.2 ≤ a.2))

instance : IsTotal (String × Nat) countGE :=
  ⟨fun a b => Nat.le_total b.2 a.2⟩

instance : IsTrans (String × Nat) countGE :=
  ⟨fun _ _ _ h1 h2 => Nat.le_trans h2 h1⟩

/-- `Series.value_counts()`: each distinct value with its frequency,
sorted by descending count. -/
def value_counts (l : List String) : List (String × Nat) :=
  ((firstKeys l).map (fun k => (k, l.count k))).insertionSort countGE

/-- Shallow embedding of the bar-chart ranking (lines 155-182):
`data_for_bar_chart` is the filtered view, falling back to the full
frame when the view is empty (and to an empty frame when both are
empty); the ranking is `value_counts()` followed by `nlargest(10)` —
the first ten entries of the descending count order. -/
def top_pollution (filtered_df df : List Row) : List (String × Nat) :=
  let data_for_bar_chart :=
    if filtered_df.isEmpty then (if df.isEmpty then [] else df)
    else filtered_df
  (value_counts (data_for_bar_chart.map Row.pollution_type)).take 10

theorem value_counts_sorted (l : List String) :
    List.Sorted countGE (value_counts l) :=
  List.sorted_insertionSort countGE _

theorem mem_value_counts (l : List String) (pr : String × Nat)
    (h : pr ∈ value_counts l) : pr.2 = l.count pr.1 := by
  unfold value_counts at h
  rw [List.mem_insertionSort] at h
  obtain ⟨k, _, hk⟩ := List.mem_map.mp h
  rw [← hk]

/-- C10: in every case — a non-empty filtered view (despite the
"top 5" label of the chart), or the fallback to the full table on an
empty view — the ranking keeps at most ten entries, in descending
frequency order, and each entry carries the frequency of its category
in the data actually ranked. -/
theorem top_pollution_top10 (filtered df : List Row) :
    (top_pollution filtered df).length ≤ 10 ∧
    List.Sorted countGE (top_pollution filtered df) ∧
    (∀ pr ∈ top_pollution filtered df,
      pr.2 = ((if filtered.isEmpty then df else filtered).map
        Row.pollution_type).count pr.1) := by
  have hdata : (if filtered.isEmpty then (if df.isEmpty then [] else df)
      else filtered) = (if filtered.isEmpty then df else filtered) := by
    by_cases hf : filtered.isEmpty <;> by_cases hd : df.isEmpty <;>
      simp_all [List.isEmpty_iff]
  refine ⟨?_, ?_, ?_⟩
  · exact List.length_take_le _ _
  · exact (value_counts_sorted _).sublist (List.take_sublist _ _)
  · intro pr hpr
    unfold top_pollution at hpr
    rw [hdata] at hpr
    exact mem_value_counts _ pr (List.mem_of_mem_take hpr)

theorem top_pollution_top10_witness :
    (("Tumpahan Minyak", 1) : String × Nat).2 =
      ((if ([sampleRowDated] : List Row).isEmpty then ([] : List Row)
        else [sampleRowDated]).map Row.pollution_type).count
          ("Tumpahan Minyak", 1).1 :=
  (top_pollution_top10 [sampleRowDated] []).2.2 ("Tumpahan Minyak", 1)
    (by decide)

/-! ## Idempotence of the normalization pipeline (C8) -/

theorem toNat_ofNat_le {n : Nat} (h : n ≤ 122) : (Char.ofNat n).toNat = n := by
  interval_cases n <;> rfl

theorem lowerChar_idem (c : Char) : lowerChar (lowerChar c) = lowerChar c := by
  unfold lowerChar
  by_cases h : 65 ≤ c.toNat ∧ c.toNat ≤ 90
  · rw [if_pos h]
    have ht : (Char.ofNat (c.toNat + 32)).toNat = c.toNat + 32 :=
      toNat_ofNat_le (by omega)
    rw [if_neg]
    intro hcon
    rw [ht] at hcon
    omega
  · rw [if_neg h, if_neg h]

theorem not_upper_of_lowerChar_fix {c : Char} (h : lowerChar c = c) :
    ¬(65 ≤ c.toNat ∧ c.toNat ≤ 90) := by
  intro hc
  unfold lowerChar at h
  rw [if_pos hc] at h
  have ht := congrArg Char.toNat h
  rw [toNat_ofNat_le (by omega)] at ht
  omega

theorem lowerChar_upperChar_fix {c : Char} (h : lowerChar c = c) :
    lowerChar (upperChar c) = c := by
  unfold upperChar
  by_cases hl : 97 ≤ c.toNat ∧ c.toNat ≤ 122
  · rw [if_pos hl]
    have ht : (Char.ofNat (c.toNat - 32)).toNat = c.toNat - 32 :=
      toNat_ofNat_le (by omega)
    unfold lowerChar
    rw [if_pos (by rw [ht]; omega), ht]
    have hc : c.toNat - 32 + 32 = c.toNat := by omega
    rw [hc, Char.ofNat_toNat]
  · rw [if_neg hl]
    exact h

theorem isSpaceChar_false_of_ge {c : Char} (h : 33 ≤ c.toNat) :
    isSpaceChar c = false := by
  unfold isSpaceChar
  simp only [Bool.or_eq_false_iff, beq_eq_false_iff_ne, ne_eq]
  refine ⟨⟨⟨⟨⟨?_, ?_⟩, ?_⟩, ?_⟩, ?_⟩, ?_⟩ <;>
    (intro hEq; subst hEq; exact absurd h (by decide))

theorem isSpaceChar_lowerChar (c : Char) :
    isSpaceChar (lowerChar c) = isSpaceChar c := by
  unfold lowerChar
  by_cases h : 65 ≤ c.toNat ∧ c.toNat ≤ 90
  · rw [if_pos h]
    rw [isSpaceChar_false_of_ge, isSpaceChar_false_of_ge]
    · omega
    · rw [toNat_ofNat_le (by omega)]
      omega
  · rw [if_neg h]

theorem isSpaceChar_upperChar (c : Char) :
    isSpaceChar (upperChar c) = isSpaceChar c := by
  unfold upperChar
  by_cases h : 97 ≤ c.toNat ∧ c.toNat ≤ 122
  · rw [if_pos h]
    rw [isSpaceChar_false_of_ge, isSpaceChar_false_of_ge]
    · omega
    · rw [toNat_ofNat_le (by omega)]
      omega
  · rw [if_neg h]

theorem map_lowerChar_titleAux :
    ∀ (l : List Char) (b : Bool), l.map lowerChar = l →
      (titleAux b l).map lowerChar = l
  | [], _, _ => rfl
  | c :: cs, b, h => by
    simp only [List.map_cons, List.cons.injEq] at h
    obtain ⟨hc, hcs⟩ := h
    unfold titleAux
    simp only [List.map_cons]
    rw [map_lowerChar_titleAux cs (isAlphaChar c) hcs]
    congr 1
    by_cases ha : isAlphaChar c = true
    · rw [if_pos ha]
      cases b with
      | true =>
        show lowerChar (lowerChar c) = c
        rw [lowerChar_idem, hc]
      | false =>
        show lowerChar (upperChar c) = c
        exact lowerChar_upperChar_fix hc
    · rw [if_neg ha]
      exact hc

theorem map_isSpace_titleAux (l : List Char) :
    ∀ b : Bool, (titleAux b l).map isSpaceChar = l.map isSpaceChar := by
  induction l with
  | nil => intro b; rfl
  | cons c cs ih =>
    intro b
    unfold titleAux
    simp only [List.map_cons]
    rw [ih (isAlphaChar c)]
    congr 1
    by_cases ha : isAlphaChar c = true
    · rw [if_pos ha]
      cases b with
      | true => exact isSpaceChar_lowerChar c
      | false => exact isSpaceChar_upperChar c
    · rw [if_neg ha]

theorem head_not_of_dropWhile_self {p : Char → Bool} {c : Char}
    {cs : List Char} (h : (c :: cs).dropWhile p = c :: cs) : p c = false := by
  rw [List.dropWhile_cons] at h
  by_cases hp : p c = true
  · rw [if_pos hp] at h
    exfalso
    have hle := (List.dropWhile_sublist (l := cs) p).length_le
    rw [h] at hle
    simp only [List.length_cons] at hle
    omega
  · simpa using hp

theorem dropWhile_eq_self_of_map_eq (p : Char → Bool) :
    ∀ l l' : List Char, l.map p = l'.map p →
      l.dropWhile p = l → l'.dropWhile p = l'
  | _, [], _, _ => rfl
  | [], _ :: _, hm, _ => by simp at hm
  | c :: cs, c' :: cs', hm, h => by
    simp only [List.map_cons, List.cons.injEq] at hm
    have hc : p c = false := head_not_of_dropWhile_self h
    rw [List.dropWhile_cons, ← hm.1, hc]
    simp

theorem dropWhile_eq_self_of_length (p : Char → Bool) (l : List Char)
    (h : (l.dropWhile p).length = l.length) : l.dropWhile p = l := by
  cases l with
  | nil => rfl
  | cons c cs =>
    rw [List.dropWhile_cons] at h ⊢
    by_cases hp : p c = true
    · rw [if_pos hp] at h
      exfalso
      have hle := (List.dropWhile_sublist (l := cs) p).length_le
      simp only [List.length_cons] at h
      omega
    · simp [hp]

theorem dropWhile_eq_self_of_prefix (p : Char → Bool) :
    ∀ l l' : List Char, l' <+: l → l.dropWhile p = l →
      l'.dropWhile p = l'
  | _, [], _, _ => rfl
  | [], _ :: _, hp, _ => by
    exfalso
    exact absurd (hp.length_le) (by simp)
  | d :: ds, c :: cs, hp, h => by
    obtain ⟨t, ht⟩ := hp
    simp only [List.cons_append, List.cons.injEq] at ht
    have hd : p d = false := head_not_of_dropWhile_self h
    rw [List.dropWhile_cons, ht.1, hd]
    simp

theorem stripChars_parts {l : List Char} (h : stripChars l = l) :
    l.dropWhile isSpaceChar = l ∧
    l.reverse.dropWhile isSpaceChar = l.reverse := by
  unfold stripChars rstripChars lstripChars at h
  have h1 : (l.dropWhile isSpaceChar).length ≤ l.length :=
    (List.dropWhile_sublist isSpaceChar).length_le
  have h2 : ((l.dropWhile isSpaceChar).reverse.dropWhile isSpaceChar).length ≤
      (l.dropWhile isSpaceChar).length := by
    have := (List.dropWhile_sublist
      (l := (l.dropWhile isSpaceChar).reverse) isSpaceChar).length_le
    simpa using this
  have h0 : ((l.dropWhile isSpaceChar).reverse.dropWhile
      isSpaceChar).reverse.length = l.length := by rw [h]
  simp only [List.length_reverse] at h0
  have hd : l.dropWhile isSpaceChar = l :=
    dropWhile_eq_self_of_length _ _ (by omega)
  rw [hd] at h
  refine ⟨hd, ?_⟩
  have hrev := congrArg List.reverse h
  simpa using hrev

theorem stripChars_transfer (l l' : List Char)
    (hm : l.map isSpaceChar = l'.map isSpaceChar)
    (h : stripChars l = l) : stripChars l' = l' := by
  obtain ⟨hd, hr⟩ := stripChars_parts h
  have hd2 : l'.dropWhile isSpaceChar = l' :=
    dropWhile_eq_self_of_map_eq _ l l' hm hd
  have hmrev : l.reverse.map isSpaceChar = l'.reverse.map isSpaceChar := by
    rw [List.map_reverse, List.map_reverse, hm]
  have hr2 : l'.reverse.dropWhile isSpaceChar = l'.reverse :=
    dropWhile_eq_self_of_map_eq _ _ _ hmrev hr
  unfold stripChars rstripChars lstripChars
  rw [hd2, hr2]
  simp

theorem stripChars_idem (l : List Char) :
    stripChars (stripChars l) = stripChars l := by
  have hrd : stripChars l =
      List.rdropWhile isSpaceChar (l.dropWhile isSpaceChar) := rfl
  rw [hrd]
  have h1 : List.dropWhile isSpaceChar (l.dropWhile isSpaceChar) =
      l.dropWhile isSpaceChar := List.dropWhile_idempotent _ _
  have h2 : (List.rdropWhile isSpaceChar
      (l.dropWhile isSpaceChar)).dropWhile isSpaceChar =
      List.rdropWhile isSpaceChar (l.dropWhile isSpaceChar) :=
    dropWhile_eq_self_of_prefix _ _ _
      (List.rdropWhile_prefix _ _) h1
  show List.rdropWhile isSpaceChar
      ((List.rdropWhile isSpaceChar
        (l.dropWhile isSpaceChar)).dropWhile isSpaceChar) = _
  rw [h2, List.rdropWhile_idempotent]

theorem fixSentinel_eq (x : String) : fixSentinel x = x := by
  unfold fixSentinel
  by_cases h : x = "Tidak Diketahui"
  · rw [if_pos h, h]
  · rw [if_neg h]

theorem lower_strip_fixed (s : String) :
    (lowerString (stripString s)).data.map lowerChar =
      (lowerString (stripString s)).data ∧
    stripChars (lowerString (stripString s)).data =
      (lowerString (stripString s)).data := by
  constructor
  · show ((stripChars s.data).map lowerChar).map lowerChar =
      (stripChars s.data).map lowerChar
    rw [List.map_map]
    exact List.map_congr_left (fun a _ => lowerChar_idem a)
  · show stripChars ((stripChars s.data).map lowerChar) =
      (stripChars s.data).map lowerChar
    apply stripChars_transfer (stripChars s.data)
    · rw [List.map_map]
      exact (List.map_congr_left
        (fun a _ => (isSpaceChar_lowerChar a).symm))
    · exact stripChars_idem s.data

theorem replaceProblematic_ready (u : String)
    (h1 : u.data.map lowerChar = u.data)
    (h2 : stripChars u.data = u.data) :
    ((replaceProblematic u).data.map lowerChar =
        (replaceProblematic u).data ∧
      stripChars (replaceProblematic u).data =
        (replaceProblematic u).data) ∧
    replaceProblematic u ∉ problematic_values := by
  unfold replaceProblematic
  by_cases hm : u ∈ problematic_values
  · rw [if_pos hm]
    exact ⟨⟨by decide, by decide⟩, by decide⟩
  · rw [if_neg hm]
    exact ⟨⟨h1, h2⟩, hm⟩

theorem replaceSynonyms_ready (u : String)
    (h1 : u.data.map lowerChar = u.data)
    (h2 : stripChars u.data = u.data)
    (h3 : u ∉ problematic_values) :
    ((replaceSynonyms u).data.map lowerChar = (replaceSynonyms u).data ∧
      stripChars (replaceSynonyms u).data = (replaceSynonyms u).data) ∧
    replaceSynonyms u ∉ problematic_values ∧
    synonym_table.find? (fun q => q.1 == replaceSynonyms u) = none := by
  cases hf : synonym_table.find? (fun p => p.1 == u) with
  | none =>
    have hval : replaceSynonyms u = u := by
      unfold replaceSynonyms
      rw [hf]
    rw [hval]
    exact ⟨⟨h1, h2⟩, h3, hf⟩
  | some pr =>
    have hval : replaceSynonyms u = pr.2 := by
      unfold replaceSynonyms
      rw [hf]
    rw [hval]
    have hmem := List.mem_of_find?_eq_some hf
    simp only [synonym_table, List.mem_cons, List.not_mem_nil,
      or_false] at hmem
    rcases hmem with rfl | rfl | rfl | rfl <;>
      exact ⟨⟨by decide, by decide⟩, by decide, by decide⟩

theorem normString_fixed (u : String)
    (h1 : u.data.map lowerChar = u.data)
    (h2 : stripChars u.data = u.data)
    (h3 : u ∉ problematic_values)
    (h4 : synonym_table.find? (fun q => q.1 == u) = none) :
    normString (titleString u) = titleString u := by
  unfold normString
  have hstrip : stripString (titleString u) = titleString u := by
    unfold stripString titleString
    apply congrArg String.mk
    apply stripChars_transfer u.data
    · exact (map_isSpace_titleAux u.data false).symm
    · exact h2
  rw [hstrip]
  have hlower : lowerString (titleString u) = u := by
    unfold lowerString titleString
    have hmap := map_lowerChar_titleAux u.data false h1
    cases u with
    | mk d => exact congrArg String.mk hmap
  rw [hlower]
  have hp : replaceProblematic u = u := by
    unfold replaceProblematic
    rw [if_neg h3]
  rw [hp]
  have hs : replaceSynonyms u = u := by
    unfold replaceSynonyms
    rw [h4]
  rw [hs]
  exact fixSentinel_eq _

theorem normString_idem (s : String) :
    normString (normString s) = normString s := by
  obtain ⟨hA1, hA2⟩ := lower_strip_fixed s
  obtain ⟨⟨hB1, hB2⟩, hB3⟩ := replaceProblematic_ready _ hA1 hA2
  obtain ⟨⟨hC1, hC2⟩, hC3, hC4⟩ := replaceSynonyms_ready _ hB1 hB2 hB3
  have hNs : normString s = titleString (replaceSynonyms
      (replaceProblematic (lowerString (stripString s)))) := by
    unfold normString
    exact fixSentinel_eq _
  rw [hNs]
  exact normString_fixed _ hC1 hC2 hC3 hC4

/-- C8: the pollution-type normalization is idempotent — re-running the
whole pipeline (strip, lower, noise-token replacement, synonym merge,
title-case, sentinel re-assertion) on any of its own outputs returns
that output unchanged. -/
theorem normalize_pollution_type_idem (c : Cell) :
    normalize_pollution_type (Cell.s (normalize_pollution_type c)) =
      normalize_pollution_type c := by
  show normString (normString (cellPyStr c)) = normString (cellPyStr c)
  exact normString_idem _
